/-
  Verification of the `bit_roles` crate (zignis/bit-roles).

  Shallow embedding: Rust `usize` is modelled as `Nat` (bitwise complement,
  the only width-sensitive operation used, is modelled explicitly on 64 bits
  by `usize_not`); fallible Rust methods returning `Result` are modelled with
  `Except`; `&mut self` methods are modelled by explicit state passing, an
  operation returning the updated manager together with its `Result`.
-/
import Mathlib

/-- Models `usize::is_power_of_two` from the Rust standard library:
true iff the value has exactly one set bit, tested with the standard
single-bit check `v != 0 && v & (v - 1) == 0`. -/
def is_power_of_two (value : Nat) : Bool :=
  value != 0 && (value &&& (value - 1) == 0)

/-- `src/bit_roles/src/utils/is_valid_role.rs`:
`value == 0 || value.is_power_of_two()`. -/
def is_valid_role (value : Nat) : Bool :=
  value == 0 || is_power_of_two value

/-- `src/bit_roles/src/utils/is_validate_role.rs`:
`value == 0 || value.is_power_of_two()`. -/
def is_validate_role (value : Nat) : Bool :=
  value == 0 || is_power_of_two value

/-- `src/bit_roles/src/utils/negate.rs`: `!value`. -/
def negate (value : Bool) : Bool :=
  !value

/-- `src/bit_roles/src/error.rs`: the error raised when working with role
values. -/
inductive RoleError where
  /-- Raised when the provided role holds a value that is neither zero nor
  a power of two. -/
  | InvalidRole : Nat → RoleError
deriving DecidableEq, Repr

/-- The `RoleVariant` trait of `src/bit_roles/src/lib.rs`:
`Into<usize> + Copy`. -/
class RoleVariant (T : Type) where
  /-- The `Into<usize>` conversion of the role enum. -/
  into : T → Nat

/-- `src/bit_roles/src/role_value.rs`: the enum holding the value of a role
(the Rust enum is bounded by `T : RoleVariant`; here the bound sits on the
operations that use it). -/
inductive RoleValue (T : Type) where
  /-- Variant that can accept role enum variants. -/
  | Role : T → RoleValue T
  /-- Variant that can accept literal integer values. -/
  | Raw : Nat → RoleValue T
deriving DecidableEq, Repr

/-- The `From<RoleValue<T>> for usize` impl of `role_value.rs`: the
normalized magnitude of a role value. -/
def RoleValue.intoUsize [RoleVariant T] : RoleValue T → Nat
  | RoleValue.Role role => RoleVariant.into role
  | RoleValue.Raw value => value

/-- `RoleValue::try_from_role`: validates a role and wraps it. -/
def RoleValue.try_from_role [RoleVariant T] (role : T) :
    Except RoleError (RoleValue T) :=
  if is_valid_role (RoleVariant.into role) then
    Except.ok (RoleValue.Role role)
  else
    Except.error (RoleError.InvalidRole (RoleVariant.into role))

/-- `RoleValue::try_from_usize`: validates an integer value and wraps it. -/
def RoleValue.try_from_usize (T : Type) (value : Nat) :
    Except RoleError (RoleValue T) :=
  if is_valid_role value then
    Except.ok (RoleValue.Raw value)
  else
    Except.error (RoleError.InvalidRole value)

/-- Bitwise complement of a 64-bit `usize` value: every one of the 64 bits
is flipped. Models Rust `!value` in `remove_one` / `try_remove_one`. -/
def usize_not (value : Nat) : Nat :=
  (2 ^ 64 - 1) ^^^ value

/-- `src/bit_roles/src/checked.rs`: the default role manager with
compile-time value checks. `RoleManager<T>(pub usize, pub PhantomData<T>)`;
the zero-sized `PhantomData<T>` field is carried by the type parameter. -/
structure RoleManager (T : Type) where
  /-- The stored magnitude (field `.0` of the Rust tuple struct). -/
  val : Nat
deriving DecidableEq, Repr

/-- `BitRoleImpl::empty` as generated by the `BitRole` derive macro:
`RoleManager(0, PhantomData)`. -/
def RoleManager.empty {T : Type} : RoleManager T :=
  ⟨0⟩

/-- `BitRoleImpl::from_value` as generated by the `BitRole` derive macro:
`RoleManager(value, PhantomData)`. -/
def RoleManager.from_value {T : Type} (value : Nat) : RoleManager T :=
  ⟨value⟩

/-- `RoleManager::add_one`: `self.0 |= role.into()`. -/
def RoleManager.add_one [RoleVariant T] (self : RoleManager T) (role : T) :
    RoleManager T :=
  ⟨self.val ||| RoleVariant.into role⟩

/-- `RoleManager::add_all`: adds each role in order. -/
def RoleManager.add_all [RoleVariant T] (self : RoleManager T)
    (roles : List T) : RoleManager T :=
  roles.foldl RoleManager.add_one self

/-- `RoleManager::remove_one`: `self.0 &= !role.into()`. -/
def RoleManager.remove_one [RoleVariant T] (self : RoleManager T) (role : T) :
    RoleManager T :=
  ⟨self.val &&& usize_not (RoleVariant.into role)⟩

/-- `RoleManager::remove_all`: removes each role in order. -/
def RoleManager.remove_all [RoleVariant T] (self : RoleManager T)
    (roles : List T) : RoleManager T :=
  roles.foldl RoleManager.remove_one self

/-- `RoleManager::has_one`: `self.0 & role.into() != 0`. -/
def RoleManager.has_one [RoleVariant T] (self : RoleManager T) (role : T) :
    Bool :=
  self.val &&& RoleVariant.into role != 0

/-- `RoleManager::has_all`: every role's bit test succeeds. -/
def RoleManager.has_all [RoleVariant T] (self : RoleManager T)
    (roles : List T) : Bool :=
  roles.all fun role => self.val &&& RoleVariant.into role != 0

/-- `RoleManager::has_any`: some role's bit test succeeds. -/
def RoleManager.has_any [RoleVariant T] (self : RoleManager T)
    (roles : List T) : Bool :=
  roles.any fun role => self.val &&& RoleVariant.into role != 0

/-- `RoleManager::not_one`. -/
def RoleManager.not_one [RoleVariant T] (self : RoleManager T) (role : T) :
    Bool :=
  !self.has_one role

/-- `RoleManager::get_value`: the stored magnitude. -/
def RoleManager.get_value {T : Type} (self : RoleManager T) : Nat :=
  self.val

/-- The `PartialEq` impl for `RoleManager`: `self.0 == other.0`. The body
reads only the magnitude and never the `PhantomData` tag, so it is stated
for two managers with arbitrary (possibly different) tags. -/
def RoleManager.eq (self : RoleManager S) (other : RoleManager T) : Bool :=
  self.val == other.val

/-- `src/bit_roles/src/unchecked.rs`: the unchecked role manager.
`RoleManagerUnchecked<T>(pub usize, pub PhantomData<T>)`. -/
structure RoleManagerUnchecked (T : Type) where
  /-- The stored magnitude (field `.0` of the Rust tuple struct). -/
  val : Nat
deriving DecidableEq, Repr

/-- `BitRoleUncheckedImpl::empty` as generated by the `BitRoleUnchecked`
derive macro: `RoleManagerUnchecked(0, PhantomData)`. -/
def RoleManagerUnchecked.empty {T : Type} : RoleManagerUnchecked T :=
  ⟨0⟩

/-- `BitRoleUncheckedImpl::from_value` as generated by the
`BitRoleUnchecked` derive macro. -/
def RoleManagerUnchecked.from_value {T : Type} (value : Nat) :
    RoleManagerUnchecked T :=
  ⟨value⟩

/-- `RoleManagerUnchecked::validate_role`: normalizes the role value and
validates the magnitude with `is_validate_role`. -/
def RoleManagerUnchecked.validate_role [RoleVariant T]
    (_self : RoleManagerUnchecked T) (role : RoleValue T) :
    Except RoleError Nat :=
  let mag := role.intoUsize
  if is_validate_role mag then
    Except.ok mag
  else
    Except.error (RoleError.InvalidRole mag)

/-- `RoleManagerUnchecked::try_add_one`: validate, then `self.0 |= value`.
The `?` operator returns early with the manager unmutated; the pair carries
the (possibly updated) manager state alongside the `Result`. -/
def RoleManagerUnchecked.try_add_one [RoleVariant T]
    (self : RoleManagerUnchecked T) (role : RoleValue T) :
    RoleManagerUnchecked T × Except RoleError Unit :=
  match self.validate_role role with
  | Except.error e => (self, Except.error e)
  | Except.ok value => (⟨self.val ||| value⟩, Except.ok ())

/-- `RoleManagerUnchecked::try_add_all`: `for role in roles
{ self.try_add_one(role)?; }`. -/
def RoleManagerUnchecked.try_add_all [RoleVariant T] :
    RoleManagerUnchecked T → List (RoleValue T) →
    RoleManagerUnchecked T × Except RoleError Unit
  | self, [] => (self, Except.ok ())
  | self, role :: rest =>
    match self.try_add_one role with
    | (m, Except.ok _) => RoleManagerUnchecked.try_add_all m rest
    | (m, Except.error e) => (m, Except.error e)

/-- `RoleManagerUnchecked::try_remove_one`: validate, then
`self.0 &= !value`. -/
def RoleManagerUnchecked.try_remove_one [RoleVariant T]
    (self : RoleManagerUnchecked T) (role : RoleValue T) :
    RoleManagerUnchecked T × Except RoleError Unit :=
  match self.validate_role role with
  | Except.error e => (self, Except.error e)
  | Except.ok value => (⟨self.val &&& usize_not value⟩, Except.ok ())

/-- `RoleManagerUnchecked::try_remove_all`: `for role in roles
{ self.try_remove_one(role)?; }`. -/
def RoleManagerUnchecked.try_remove_all [RoleVariant T] :
    RoleManagerUnchecked T → List (RoleValue T) →
    RoleManagerUnchecked T × Except RoleError Unit
  | self, [] => (self, Except.ok ())
  | self, role :: rest =>
    match self.try_remove_one role with
    | (m, Except.ok _) => RoleManagerUnchecked.try_remove_all m rest
    | (m, Except.error e) => (m, Except.error e)

/-- `RoleManagerUnchecked::try_has_one`: validate, then
`Ok(self.0 & value != 0)`. -/
def RoleManagerUnchecked.try_has_one [RoleVariant T]
    (self : RoleManagerUnchecked T) (role : RoleValue T) :
    Except RoleError Bool :=
  match self.validate_role role with
  | Except.error e => Except.error e
  | Except.ok value => Except.ok (self.val &&& value != 0)

/-- The loop of `RoleManagerUnchecked::try_has_all`: the flag is overwritten
by each successfully evaluated role. -/
def RoleManagerUnchecked.try_has_all_go [RoleVariant T]
    (self : RoleManagerUnchecked T) (flag : Bool) :
    List (RoleValue T) → Except RoleError Bool
  | [] => Except.ok flag
  | role :: rest =>
    match self.try_has_one role with
    | Except.error e => Except.error e
    | Except.ok f => self.try_has_all_go f rest

/-- `RoleManagerUnchecked::try_has_all`: `let mut flag = false; for role in
roles { flag = self.try_has_one(role)?; } Ok(flag)`. -/
def RoleManagerUnchecked.try_has_all [RoleVariant T]
    (self : RoleManagerUnchecked T) (roles : List (RoleValue T)) :
    Except RoleError Bool :=
  self.try_has_all_go false roles

/-- `RoleManagerUnchecked::try_has_any`: `for role in roles
{ if self.try_has_one(role)? { flag = true; break; } } Ok(flag)`. -/
def RoleManagerUnchecked.try_has_any [RoleVariant T]
    (self : RoleManagerUnchecked T) :
    List (RoleValue T) → Except RoleError Bool
  | [] => Except.ok false
  | role :: rest =>
    match self.try_has_one role with
    | Except.error e => Except.error e
    | Except.ok true => Except.ok true
    | Except.ok false => self.try_has_any rest

/-- `RoleManagerUnchecked::get_value`: the stored magnitude. -/
def RoleManagerUnchecked.get_value {T : Type} (self : RoleManagerUnchecked T) :
    Nat :=
  self.val

/-- The `PartialEq` impl for `RoleManagerUnchecked`: `self.0 == other.0`.
As for the checked manager, the body never reads the tag, so it is stated
for arbitrary tags. -/
def RoleManagerUnchecked.eq (self : RoleManagerUnchecked S)
    (other : RoleManagerUnchecked T) : Bool :=
  self.val == other.val

/-- A concrete role enum mirroring the test enums of the repository
(`None = 0`, `Staff = 1`, `Member = 2`). -/
inductive MyRole where
  | noRole
  | staff
  | member
deriving DecidableEq, Repr

instance : RoleVariant MyRole :=
  ⟨fun role => match role with
    | MyRole.noRole => 0
    | MyRole.staff => 1
    | MyRole.member => 2⟩

/-- A second, distinct symbolic role enum (`Guest = 4`), used to exercise
tag-independence of manager equality. -/
inductive OtherRole where
  | guest
deriving DecidableEq, Repr

instance : RoleVariant OtherRole :=
  ⟨fun _ => 4⟩

/-- A power of two has zero bitwise-and with its predecessor. -/
lemma two_pow_land_pred (k : Nat) : 2 ^ k &&& (2 ^ k - 1) = 0 := by
  apply Nat.eq_of_testBit_eq
  intro i
  rw [Nat.testBit_land, Nat.testBit_two_pow, Nat.testBit_two_pow_sub_one]
  simp only [Nat.zero_testBit, Bool.and_eq_false_iff, decide_eq_false_iff_not]
  omega

/-- A nonzero value with zero bitwise-and with its predecessor is a power
of two. -/
lemma land_pred_eq_zero_imp {v : Nat} (hv : v ≠ 0) (h : v &&& (v - 1) = 0) :
    ∃ k, v = 2 ^ k := by
  refine ⟨v.log2, ?_⟩
  have h1 : 2 ^ v.log2 ≤ v := Nat.log2_self_le hv
  have h2 : v < 2 ^ (v.log2 + 1) := Nat.lt_log2_self
  rw [pow_succ] at h2
  by_contra hne
  have hgt : 2 ^ v.log2 < v := lt_of_le_of_ne h1 (fun e => hne e.symm)
  have ht : v.testBit v.log2 = true := by
    rw [Nat.testBit_to_div_mod]
    have hd : v / 2 ^ v.log2 = 1 :=
      Nat.div_eq_of_lt_le (by omega) (by omega)
    simp [hd]
  have ht' : (v - 1).testBit v.log2 = true := by
    rw [Nat.testBit_to_div_mod]
    have hd : (v - 1) / 2 ^ v.log2 = 1 :=
      Nat.div_eq_of_lt_le (by omega) (by omega)
    simp [hd]
  have hb := congrArg (fun x => x.testBit v.log2) h
  simp only [Nat.testBit_land, ht, ht', Bool.and_self, Nat.zero_testBit] at hb
  exact Bool.noConfusion hb

/-- `is_power_of_two` decides membership in the powers of two. -/
lemma is_power_of_two_iff (v : Nat) :
    is_power_of_two v = true ↔ ∃ k, v = 2 ^ k := by
  unfold is_power_of_two
  simp only [Bool.and_eq_true, bne_iff_ne, ne_eq, beq_iff_eq]
  constructor
  · rintro ⟨hv, h⟩
    exact land_pred_eq_zero_imp hv h
  · rintro ⟨k, rfl⟩
    exact ⟨(Nat.pos_pow_of_pos k (by norm_num)).ne', two_pow_land_pred k⟩

/-- C1: for every usize value `v`, `is_valid_role v` returns true iff `v` is
zero or `v` is a power of two (exactly one set bit); the function is a pure
total Lean function. -/
theorem is_valid_role_spec (v : Nat) :
    is_valid_role v = true ↔ v = 0 ∨ ∃ k, v = 2 ^ k := by
  unfold is_valid_role
  simp only [Bool.or_eq_true, beq_iff_eq, is_power_of_two_iff]

/-- C7: for every checked manager state and every sequence of roles,
`has_all` returns true iff every role in the sequence individually
satisfies `has_one` (vacuously true for the empty sequence). -/
theorem has_all_iff_forall_has_one (T : Type) [RoleVariant T]
    (self : RoleManager T) (roles : List T) :
    self.has_all roles = true ↔ ∀ role ∈ roles, self.has_one role = true := by
  simp only [RoleManager.has_all, RoleManager.has_one, List.all_eq_true]

/-- C9: managers (checked or unchecked) are equal iff their stored
magnitudes are equal, regardless of the phantom role-type tag; in
particular two checked managers built from different symbolic role types
but equal magnitude compare equal. -/
theorem manager_eq_iff_magnitude :
    (∀ (S T : Type) (a : RoleManager S) (b : RoleManager T),
      a.eq b = true ↔ a.get_value = b.get_value) ∧
    (∀ (S T : Type) (a : RoleManagerUnchecked S) (b : RoleManagerUnchecked T),
      a.eq b = true ↔ a.get_value = b.get_value) ∧
    RoleManager.eq (RoleManager.from_value (T := MyRole) 3)
      (RoleManager.from_value (T := OtherRole) 3) = true := by
  refine ⟨fun S T a b => ?_, fun S T a b => ?_, by decide⟩ <;>
    simp [RoleManager.eq, RoleManagerUnchecked.eq, RoleManager.get_value,
      RoleManagerUnchecked.get_value]

/-- C6 counterexample: the magnitude `0` is accepted by the validator, yet
after `add_one` of the zero role, `has_one` of that role is `false` (the
bit test `0 & 0 != 0` fails), refuting the claim at `r = 0`. -/
theorem has_one_after_add_one_counterexample :
    is_valid_role (RoleVariant.into MyRole.noRole) = true ∧
    ((RoleManager.empty (T := MyRole)).add_one MyRole.noRole).has_one
      MyRole.noRole = false ∧
    ((RoleManager.empty (T := MyRole)).add_one MyRole.noRole).get_value =
      RoleVariant.into MyRole.noRole := by
  decide

/-- C6 (amended): for every *nonzero* valid single-role magnitude, i.e. a
power of two, an empty checked manager after `add_one` of a role with that
magnitude satisfies `has_one` of the role and `get_value` returns the
magnitude. -/
theorem has_one_after_add_one (T : Type) [RoleVariant T] (role : T)
    (h : is_power_of_two (RoleVariant.into role) = true) :
    ((RoleManager.empty (T := T)).add_one role).has_one role = true ∧
    ((RoleManager.empty (T := T)).add_one role).get_value =
      RoleVariant.into role := by
  obtain ⟨k, hk⟩ := (is_power_of_two_iff _).1 h
  have hne : RoleVariant.into role ≠ 0 := by
    rw [hk]
    exact (Nat.pos_pow_of_pos k (by norm_num)).ne'
  constructor
  · simp [RoleManager.empty, RoleManager.add_one, RoleManager.has_one,
      Nat.zero_or, Nat.and_self, hne]
  · simp [RoleManager.empty, RoleManager.add_one, RoleManager.get_value,
      Nat.zero_or]

/-- Witness for the amended C6 at the concrete role of magnitude `1`. -/
theorem has_one_after_add_one_witness :
    is_power_of_two (RoleVariant.into MyRole.staff) = true ∧
    (((RoleManager.empty (T := MyRole)).add_one MyRole.staff).has_one
        MyRole.staff = true ∧
     ((RoleManager.empty (T := MyRole)).add_one MyRole.staff).get_value =
        RoleVariant.into MyRole.staff) :=
  ⟨by decide, has_one_after_add_one MyRole MyRole.staff (by decide)⟩

/-- Setting fresh bits and clearing them again is the identity on 64-bit
values. -/
lemma lor_land_usize_not {m r : Nat} (hm : m < 2 ^ 64) (hr : r < 2 ^ 64)
    (h : m &&& r = 0) : (m ||| r) &&& usize_not r = m := by
  apply Nat.eq_of_testBit_eq
  intro i
  have hmr : ¬(m.testBit i = true ∧ r.testBit i = true) := by
    rintro ⟨h1, h2⟩
    have hb := congrArg (fun x => x.testBit i) h
    simp only [Nat.testBit_land, h1, h2, Bool.and_self, Nat.zero_testBit] at hb
    exact Bool.noConfusion hb
  rw [usize_not, Nat.testBit_land, Nat.testBit_lor, Nat.testBit_xor,
    Nat.testBit_two_pow_sub_one]
  by_cases hi : i < 64
  · simp only [hi, decide_True]
    cases hmt : m.testBit i <;> cases hrt : r.testBit i <;> simp_all
  · have hmz : m.testBit i = false :=
      Nat.testBit_eq_false_of_lt
        (lt_of_lt_of_le hm (Nat.pow_le_pow_right (by norm_num) (by omega)))
    have hrz : r.testBit i = false :=
      Nat.testBit_eq_false_of_lt
        (lt_of_lt_of_le hr (Nat.pow_le_pow_right (by norm_num) (by omega)))
    simp [hi, hmz, hrz]

/-- C8: for every manager magnitude `m` and valid single-role magnitude `r`
with `m & r == 0` (both usize values, hence below `2 ^ 64`), `add_one` of a
role of magnitude `r` followed by `remove_one` of the same role restores
the stored magnitude to exactly `m`. -/
theorem add_remove_roundtrip (T : Type) [RoleVariant T] (m : Nat) (role : T)
    (hm : m < 2 ^ 64) (hr : RoleVariant.into role < 2 ^ 64)
    (_hvalid : is_valid_role (RoleVariant.into role) = true)
    (hclean : m &&& RoleVariant.into role = 0) :
    ((RoleManager.from_value (T := T) m).add_one role).remove_one role =
      RoleManager.from_value (T := T) m := by
  have hid := lor_land_usize_not hm hr hclean
  simp [RoleManager.from_value, RoleManager.add_one, RoleManager.remove_one,
    RoleManager.mk.injEq, hid]

/-- Witness for C8 at `m = 2`, `r = 1`. -/
theorem add_remove_roundtrip_witness :
    (2 < 2 ^ 64 ∧ RoleVariant.into MyRole.staff < 2 ^ 64 ∧
     is_valid_role (RoleVariant.into MyRole.staff) = true ∧
     2 &&& RoleVariant.into MyRole.staff = 0) ∧
    ((RoleManager.from_value (T := MyRole) 2).add_one MyRole.staff).remove_one
        MyRole.staff = RoleManager.from_value (T := MyRole) 2 :=
  ⟨⟨by decide, by decide, by decide, by decide⟩,
   add_remove_roundtrip MyRole 2 MyRole.staff (by decide) (by decide)
     (by decide) (by decide)⟩

/-- `try_has_one` on a role with a valid magnitude performs the bit test. -/
lemma try_has_one_of_valid [RoleVariant T] (self : RoleManagerUnchecked T)
    (role : RoleValue T) (h : is_validate_role role.intoUsize = true) :
    self.try_has_one role = Except.ok (self.val &&& role.intoUsize != 0) := by
  simp [RoleManagerUnchecked.try_has_one, RoleManagerUnchecked.validate_role, h]

/-- `try_has_one` on a role with an invalid magnitude reports it. -/
lemma try_has_one_of_invalid [RoleVariant T] (self : RoleManagerUnchecked T)
    (role : RoleValue T) (h : is_validate_role role.intoUsize = false) :
    self.try_has_one role =
      Except.error (RoleError.InvalidRole role.intoUsize) := by
  simp [RoleManagerUnchecked.try_has_one, RoleManagerUnchecked.validate_role, h]

/-- The `try_has_all` loop keeps only the flag of the last evaluated role. -/
lemma try_has_all_go_last [RoleVariant T] (self : RoleManagerUnchecked T) :
    ∀ (roles : List (RoleValue T)) (flag : Bool) (last : RoleValue T),
      roles.getLast? = some last →
      (∀ r ∈ roles, is_validate_role r.intoUsize = true) →
      self.try_has_all_go flag roles =
        Except.ok (self.val &&& last.intoUsize != 0) := by
  intro roles
  induction roles with
  | nil =>
    intro flag last h
    simp at h
  | cons r rest ih =>
    intro flag last hlast hall
    have hr := hall r (List.mem_cons_self r rest)
    simp only [RoleManagerUnchecked.try_has_all_go,
      try_has_one_of_valid self r hr]
    cases rest with
    | nil =>
      simp only [List.getLast?_singleton, Option.some.injEq] at hlast
      subst hlast
      rfl
    | cons r2 rest2 =>
      rw [List.getLast?_cons_cons] at hlast
      exact ih _ last hlast fun x hx => hall x (List.mem_cons_of_mem r hx)

/-- C2: on an unchecked manager, for a non-empty sequence of role values
whose normalized magnitudes are all valid, `try_has_all` returns `Ok` of
the individual has-result of only the last element; for the empty sequence
it returns `Ok false`. -/
theorem try_has_all_returns_last (T : Type) [RoleVariant T]
    (self : RoleManagerUnchecked T) (roles : List (RoleValue T))
    (last : RoleValue T) (hlast : roles.getLast? = some last)
    (hall : ∀ r ∈ roles, is_validate_role r.intoUsize = true) :
    self.try_has_all roles = Except.ok (self.val &&& last.intoUsize != 0) ∧
    self.try_has_all [] = Except.ok false :=
  ⟨try_has_all_go_last self roles false last hlast hall, rfl⟩

/-- Witness for C2: with magnitude `1`, the sequence `[Raw 2, Raw 1]` has
first element absent and last element present, and `try_has_all` returns
`Ok true` (the last element's result, not the conjunction `false`). -/
theorem try_has_all_returns_last_witness :
    ([RoleValue.Raw (T := MyRole) 2, RoleValue.Raw 1].getLast? =
       some (RoleValue.Raw 1) ∧
     (∀ r ∈ [RoleValue.Raw (T := MyRole) 2, RoleValue.Raw 1],
       is_validate_role r.intoUsize = true)) ∧
    (RoleManagerUnchecked.from_value (T := MyRole) 1).try_has_all
        [RoleValue.Raw 2, RoleValue.Raw 1] = Except.ok true ∧
    (RoleManagerUnchecked.from_value (T := MyRole) 1).try_has_all [] =
      Except.ok false := by
  refine ⟨⟨by decide, by decide⟩, ?_⟩
  have h := try_has_all_returns_last MyRole
    (RoleManagerUnchecked.from_value 1) [RoleValue.Raw 2, RoleValue.Raw 1]
    (RoleValue.Raw 1) (by decide) (by decide)
  exact ⟨h.1.trans rfl, h.2⟩

/-- C3 counterexample: the sequence `[Raw 1, Raw 5]` contains the invalid
magnitude `5`, yet on a manager with magnitude `1` the query `try_has_any`
short-circuits at the earlier hit `Raw 1` and returns `Ok true` instead of
`Err(InvalidRole(5))`. -/
theorem try_has_any_counterexample :
    is_validate_role ((RoleValue.Raw 5 : RoleValue MyRole).intoUsize) =
      false ∧
    (RoleManagerUnchecked.from_value (T := MyRole) 1).try_has_any
        [RoleValue.Raw 1, RoleValue.Raw 5] = Except.ok true ∧
    (RoleManagerUnchecked.from_value (T := MyRole) 1).try_has_any
        [RoleValue.Raw 1, RoleValue.Raw 5] ≠
      Except.error (RoleError.InvalidRole 5) := by
  refine ⟨by decide, rfl, fun h => ?_⟩
  exact Except.noConfusion h

/-- The `try_has_all` loop stops at the first invalid element. -/
lemma try_has_all_go_first_invalid [RoleVariant T]
    (self : RoleManagerUnchecked T) :
    ∀ (pre : List (RoleValue T)) (flag : Bool) (bad : RoleValue T)
      (post : List (RoleValue T)),
      (∀ r ∈ pre, is_validate_role r.intoUsize = true) →
      is_validate_role bad.intoUsize = false →
      self.try_has_all_go flag (pre ++ bad :: post) =
        Except.error (RoleError.InvalidRole bad.intoUsize) := by
  intro pre
  induction pre with
  | nil =>
    intro flag bad post _ hbad
    simp only [List.nil_append, RoleManagerUnchecked.try_has_all_go,
      try_has_one_of_invalid self bad hbad]
  | cons r rest ih =>
    intro flag bad post hpre hbad
    have hr := hpre r (List.mem_cons_self r rest)
    simp only [List.cons_append, RoleManagerUnchecked.try_has_all_go,
      try_has_one_of_valid self r hr]
    exact ih _ bad post (fun x hx => hpre x (List.mem_cons_of_mem r hx)) hbad

/-- The `try_has_any` loop reaches the first invalid element when every
earlier bit test misses. -/
lemma try_has_any_first_invalid [RoleVariant T]
    (self : RoleManagerUnchecked T) :
    ∀ (pre : List (RoleValue T)) (bad : RoleValue T)
      (post : List (RoleValue T)),
      (∀ r ∈ pre, is_validate_role r.intoUsize = true) →
      (∀ r ∈ pre, self.val &&& r.intoUsize = 0) →
      is_validate_role bad.intoUsize = false →
      self.try_has_any (pre ++ bad :: post) =
        Except.error (RoleError.InvalidRole bad.intoUsize) := by
  intro pre
  induction pre with
  | nil =>
    intro bad post _ _ hbad
    simp only [List.nil_append, RoleManagerUnchecked.try_has_any,
      try_has_one_of_invalid self bad hbad]
  | cons r rest ih =>
    intro bad post hpre hzero hbad
    have hr := hpre r (List.mem_cons_self r rest)
    have hz := hzero r (List.mem_cons_self r rest)
    simp only [List.cons_append, RoleManagerUnchecked.try_has_any,
      try_has_one_of_valid self r hr, hz, bne_self_eq_false]
    exact ih bad post (fun x hx => hpre x (List.mem_cons_of_mem r hx))
      (fun x hx => hzero x (List.mem_cons_of_mem r hx)) hbad

/-- C3 (amended): on a sequence containing an invalid element,
`try_has_all` stops at the first invalid element and returns
`Err(InvalidRole)` with its magnitude; `try_has_any` does so too provided
every earlier element's individual has-result is false (otherwise it
short-circuits to `Ok true` without reaching the invalid element). -/
theorem try_batch_query_first_invalid (T : Type) [RoleVariant T]
    (self : RoleManagerUnchecked T) (pre post : List (RoleValue T))
    (bad : RoleValue T)
    (hpre : ∀ r ∈ pre, is_validate_role r.intoUsize = true)
    (hbad : is_validate_role bad.intoUsize = false) :
    self.try_has_all (pre ++ bad :: post) =
      Except.error (RoleError.InvalidRole bad.intoUsize) ∧
    ((∀ r ∈ pre, self.val &&& r.intoUsize = 0) →
      self.try_has_any (pre ++ bad :: post) =
        Except.error (RoleError.InvalidRole bad.intoUsize)) :=
  ⟨try_has_all_go_first_invalid self pre false bad post hpre hbad,
   fun hzero => try_has_any_first_invalid self pre bad post hpre hzero hbad⟩

/-- Witness for the amended C3 on an empty manager with the sequence
`[Raw 1, Raw 5, Raw 2]`: both queries surface `InvalidRole 5`. -/
theorem try_batch_query_first_invalid_witness :
    ((∀ r ∈ [RoleValue.Raw (T := MyRole) 1],
        is_validate_role r.intoUsize = true) ∧
     is_validate_role ((RoleValue.Raw 5 : RoleValue MyRole).intoUsize) =
       false ∧
     (∀ r ∈ [RoleValue.Raw (T := MyRole) 1],
        (RoleManagerUnchecked.empty (T := MyRole)).val &&& r.intoUsize = 0)) ∧
    (RoleManagerUnchecked.empty (T := MyRole)).try_has_all
        [RoleValue.Raw 1, RoleValue.Raw 5, RoleValue.Raw 2] =
      Except.error (RoleError.InvalidRole 5) ∧
    (RoleManagerUnchecked.empty (T := MyRole)).try_has_any
        [RoleValue.Raw 1, RoleValue.Raw 5, RoleValue.Raw 2] =
      Except.error (RoleError.InvalidRole 5) := by
  have h := try_batch_query_first_invalid MyRole RoleManagerUnchecked.empty
    [RoleValue.Raw 1] [RoleValue.Raw 2] (RoleValue.Raw 5) (by decide)
    (by decide)
  exact ⟨⟨by decide, by decide, by decide⟩, h.1, h.2 (by decide)⟩

/-- C4: for every unchecked manager state and role value, `try_add_one` and
`try_remove_one` fail with `InvalidRole` of the normalized magnitude and
leave the stored magnitude unchanged when the magnitude is invalid, and
succeed when it is valid; in particular `try_add_one (Raw 5)` fails with
`InvalidRole 5` and `try_add_one (Raw 4)` succeeds. -/
theorem try_single_role_validation (T : Type) [RoleVariant T]
    (self : RoleManagerUnchecked T) (role : RoleValue T) :
    (is_validate_role role.intoUsize = false →
      self.try_add_one role =
        (self, Except.error (RoleError.InvalidRole role.intoUsize)) ∧
      self.try_remove_one role =
        (self, Except.error (RoleError.InvalidRole role.intoUsize))) ∧
    (is_validate_role role.intoUsize = true →
      (self.try_add_one role).2 = Except.ok () ∧
      (self.try_remove_one role).2 = Except.ok ()) ∧
    self.try_add_one (RoleValue.Raw 5) =
      (self, Except.error (RoleError.InvalidRole 5)) ∧
    (self.try_add_one (RoleValue.Raw 4)).2 = Except.ok () := by
  refine ⟨fun h => ?_, fun h => ?_, ?_, ?_⟩
  · constructor <;>
      simp [RoleManagerUnchecked.try_add_one,
        RoleManagerUnchecked.try_remove_one,
        RoleManagerUnchecked.validate_role, h]
  · constructor <;>
      simp [RoleManagerUnchecked.try_add_one,
        RoleManagerUnchecked.try_remove_one,
        RoleManagerUnchecked.validate_role, h]
  · have h5 : is_validate_role 5 = false := by decide
    simp [RoleManagerUnchecked.try_add_one,
      RoleManagerUnchecked.validate_role, RoleValue.intoUsize, h5]
  · have h4 : is_validate_role 4 = true := by decide
    simp [RoleManagerUnchecked.try_add_one,
      RoleManagerUnchecked.validate_role, RoleValue.intoUsize, h4]

/-- Witness for C4 at the manager of magnitude `2` and the invalid role
value `Raw 3`. -/
theorem try_single_role_validation_witness :
    is_validate_role ((RoleValue.Raw 3 : RoleValue MyRole).intoUsize) =
      false ∧
    ((RoleManagerUnchecked.from_value (T := MyRole) 2).try_add_one
        (RoleValue.Raw 3) =
      (RoleManagerUnchecked.from_value 2,
       Except.error (RoleError.InvalidRole 3)) ∧
     (RoleManagerUnchecked.from_value (T := MyRole) 2).try_remove_one
        (RoleValue.Raw 3) =
      (RoleManagerUnchecked.from_value 2,
       Except.error (RoleError.InvalidRole 3))) :=
  ⟨by decide,
   (try_single_role_validation MyRole (RoleManagerUnchecked.from_value 2)
      (RoleValue.Raw 3)).1 (by decide)⟩

/-- `try_add_all` applies every element before the first invalid one and
stops there. -/
lemma try_add_all_first_invalid [RoleVariant T] :
    ∀ (pre : List (RoleValue T)) (self : RoleManagerUnchecked T)
      (bad : RoleValue T) (post : List (RoleValue T)),
      (∀ r ∈ pre, is_validate_role r.intoUsize = true) →
      is_validate_role bad.intoUsize = false →
      self.try_add_all (pre ++ bad :: post) =
        (pre.foldl (fun m r => ⟨m.val ||| r.intoUsize⟩) self,
         Except.error (RoleError.InvalidRole bad.intoUsize)) := by
  intro pre
  induction pre with
  | nil =>
    intro self bad post _ hbad
    simp only [List.nil_append, List.foldl_nil,
      RoleManagerUnchecked.try_add_all]
    simp [RoleManagerUnchecked.try_add_one,
      RoleManagerUnchecked.validate_role, hbad]
  | cons r rest ih =>
    intro self bad post hpre hbad
    have hr := hpre r (List.mem_cons_self r rest)
    have hstep : self.try_add_one r =
        (⟨self.val ||| r.intoUsize⟩, Except.ok ()) := by
      simp [RoleManagerUnchecked.try_add_one,
        RoleManagerUnchecked.validate_role, hr]
    simp only [List.cons_append, List.foldl_cons,
      RoleManagerUnchecked.try_add_all, hstep]
    exact ih ⟨self.val ||| r.intoUsize⟩ bad post
      (fun x hx => hpre x (List.mem_cons_of_mem r hx)) hbad

/-- C5: batch mutation on the unchecked manager is not atomic:
`try_add_all` applies elements sequentially, stops at the first invalid
element with `InvalidRole`, and the effects of all earlier elements remain
applied; concretely `try_add_all [Raw 1, Raw 5]` on an empty manager leaves
magnitude `1` and returns `InvalidRole 5`. -/
theorem try_add_all_partial_effects (T : Type) [RoleVariant T]
    (self : RoleManagerUnchecked T) (pre post : List (RoleValue T))
    (bad : RoleValue T)
    (hpre : ∀ r ∈ pre, is_validate_role r.intoUsize = true)
    (hbad : is_validate_role bad.intoUsize = false) :
    self.try_add_all (pre ++ bad :: post) =
      (pre.foldl (fun m r => ⟨m.val ||| r.intoUsize⟩) self,
       Except.error (RoleError.InvalidRole bad.intoUsize)) ∧
    (RoleManagerUnchecked.empty (T := T)).try_add_all
        [RoleValue.Raw 1, RoleValue.Raw 5] =
      (RoleManagerUnchecked.from_value 1,
       Except.error (RoleError.InvalidRole 5)) := by
  refine ⟨try_add_all_first_invalid pre self bad post hpre hbad, ?_⟩
  have h1 : is_validate_role 1 = true := by decide
  have h5 : is_validate_role 5 = false := by decide
  simp [RoleManagerUnchecked.try_add_all, RoleManagerUnchecked.try_add_one,
    RoleManagerUnchecked.validate_role, RoleManagerUnchecked.empty,
    RoleManagerUnchecked.from_value, h1, h5, RoleValue.intoUsize]

/-- Witness for C5 with `pre = [Raw 1]`, `bad = Raw 5` on an empty
manager. -/
theorem try_add_all_partial_effects_witness :
    ((∀ r ∈ [RoleValue.Raw (T := MyRole) 1],
        is_validate_role r.intoUsize = true) ∧
     is_validate_role ((RoleValue.Raw 5 : RoleValue MyRole).intoUsize) =
       false) ∧
    (RoleManagerUnchecked.empty (T := MyRole)).try_add_all
        [RoleValue.Raw 1, RoleValue.Raw 5] =
      (RoleManagerUnchecked.from_value 1,
       Except.error (RoleError.InvalidRole 5)) :=
  ⟨⟨by decide, by decide⟩,
   (try_add_all_partial_effects MyRole RoleManagerUnchecked.empty
      [RoleValue.Raw 1] [] (RoleValue.Raw 5) (by decide) (by decide)).2⟩

/-- C10: the two validators `is_valid_role` (used by the `RoleValue`
`try_from` constructors) and `is_validate_role` (used by the unchecked
manager's per-call validation) agree on every usize value. -/
theorem validators_agree : ∀ v : Nat, is_valid_role v = is_validate_role v :=
  fun _ => rfl
